import Mathlib

/-!
Verification of the SNMP agent engine (package `snmp`): the managed-object
registry, the community-based access control, the PDU processor and the
message dispatcher, embedded from the Go source, together with proofs of
the specified properties.
-/

namespace Snmp

/-- An OID is an ordered sequence of non-negative integers.
Modelled from the spec: the OID value type (`asn1.Oid`) is an external
collaborator; the core only requires its comparison contract, which is
lexicographic component-by-component, a shorter prefix sorting before any
sequence it prefixes. -/
abbrev Oid := List Nat

/-- Lexicographic three-way comparison of OIDs (`asn1.Oid.Cmp` contract). -/
def Oid.cmp : Oid → Oid → Ordering
  | [], [] => .eq
  | [], _ :: _ => .lt
  | _ :: _, [] => .gt
  | x :: xs, y :: ys =>
    if x < y then .lt else if y < x then .gt else Oid.cmp xs ys

theorem Oid.cmp_eq_iff_eq : ∀ {a b : Oid}, Oid.cmp a b = .eq ↔ a = b := by
  intro a
  induction a with
  | nil => intro b; cases b <;> simp [Oid.cmp]
  | cons x xs ih =>
    intro b
    cases b with
    | nil => simp [Oid.cmp]
    | cons y ys =>
      by_cases hxy : x < y
      · have hne : x ≠ y := by omega
        simp [Oid.cmp, hxy, hne]
      · by_cases hyx : y < x
        · have hne : x ≠ y := by omega
          simp [Oid.cmp, hxy, hyx, hne]
        · have hxyeq : x = y := by omega
          subst hxyeq
          simp [Oid.cmp, hxy, hyx, ih]

theorem Oid.cmp_self (a : Oid) : Oid.cmp a a = .eq :=
  Oid.cmp_eq_iff_eq.mpr rfl

theorem Oid.cmp_swap : ∀ (a b : Oid), (Oid.cmp a b).swap = Oid.cmp b a := by
  intro a
  induction a with
  | nil => intro b; cases b <;> simp [Oid.cmp, Ordering.swap]
  | cons x xs ih =>
    intro b
    cases b with
    | nil => simp [Oid.cmp, Ordering.swap]
    | cons y ys =>
      by_cases hxy : x < y
      · have hyx : ¬ y < x := by omega
        simp [Oid.cmp, hxy, hyx, Ordering.swap]
      · by_cases hyx : y < x
        · simp [Oid.cmp, hxy, hyx, Ordering.swap]
        · simp [Oid.cmp, hxy, hyx, ih]

theorem Oid.cmp_lt_iff_gt {a b : Oid} : Oid.cmp a b = .lt ↔ Oid.cmp b a = .gt := by
  rw [← Oid.cmp_swap a b]
  cases Oid.cmp a b <;> simp [Ordering.swap]

theorem Oid.cmp_lt_trans : ∀ {a b c : Oid},
    Oid.cmp a b = .lt → Oid.cmp b c = .lt → Oid.cmp a c = .lt := by
  intro a
  induction a with
  | nil =>
    intro b c h1 h2
    cases b with
    | nil => simp [Oid.cmp] at h1
    | cons y ys =>
      cases c with
      | nil => simp [Oid.cmp] at h2
      | cons z zs => simp [Oid.cmp]
  | cons x xs ih =>
    intro b c h1 h2
    cases b with
    | nil => simp [Oid.cmp] at h1
    | cons y ys =>
      cases c with
      | nil => simp [Oid.cmp] at h2
      | cons z zs =>
        by_cases hxy : x < y
        · by_cases hyz : y < z
          · simp [Oid.cmp, show x < z by omega]
          · by_cases hzy : z < y
            · simp [Oid.cmp, hyz, hzy] at h2
            · have : y = z := by omega
              subst this
              simp [Oid.cmp, hxy]
        · by_cases hyx : y < x
          · simp [Oid.cmp, hxy, hyx] at h1
          · have : x = y := by omega
            subst this
            simp only [Oid.cmp, hxy, hyx, if_neg, ite_self] at h1
            by_cases hyz : x < z
            · simp [Oid.cmp, hyz]
            · by_cases hzy : z < x
              · simp [Oid.cmp, hyz, hzy] at h2
              · have : x = z := by omega
                subst this
                simp only [Oid.cmp, hyz, hzy, if_neg, ite_self] at h2
                simp only [Oid.cmp, hyz, hzy, if_neg, ite_self]
                exact ih h1 h2

theorem Oid.cmp_cases (a b : Oid) :
    Oid.cmp a b = .lt ∨ Oid.cmp a b = .eq ∨ Oid.cmp a b = .gt := by
  cases Oid.cmp a b <;> simp

/-- SNMP error-status codes (the `const` block of the Go source). -/
def NoError : Int := 0

def TooBig : Int := 1

def NoSuchName : Int := 2

def BadValue : Int := 3

def ReadOnly : Int := 4

def GenErr : Int := 5

def NoAccess : Int := 6

def WrongType : Int := 7

def WrongLength : Int := 8

def WrongEncoding : Int := 9

def WrongValue : Int := 10

def NoCreation : Int := 11

def InconsistentValue : Int := 12

def ResourceUnavailable : Int := 13

def CommitFailed : Int := 14

def UndoFailed : Int := 15

def AuthorizationError : Int := 16

def NotWritable : Int := 17

def InconsistentName : Int := 18

/-- `Error` is the typed error a Getter or Setter may return; its `Status`
is used in the SNMP response (Go `type Error struct { Status int; Message string }`). -/
structure Error where
  Status : Int
  Message : String

/-- `Errorf` creates a new `Error` (the format string is applied before the call). -/
def Errorf (status : Int) (msg : String) : Error :=
  { Status := status, Message := msg }

/-- A Go `error` value as seen by the agent: either the typed `snmp.Error`
(for which the type assertion `err.(Error)` succeeds) or any other error value. -/
inductive GoError where
  | snmp (e : Error)
  | other (msg : String)

/-- The status the agent derives from an accessor error: `e.Status` when the
type assertion to `Error` succeeds, `GenErr` otherwise. -/
def GoError.status : GoError → Int
  | .snmp e => e.Status
  | .other _ => GenErr

/-- The value type: Go `interface{}` values are opaque to the agent logic,
so the embedding is parametric in the value type `V`. -/
def Getter (V : Type) := Oid → Except GoError V

/-- Setter is a function called to set a managed object value; it returns
`none` on success and `some err` on failure (Go `error` result). -/
def Setter (V : Type) := Oid → V → Option GoError

/-- Variable represents an entry of the variable bindings. -/
structure Variable (V : Type) where
  Name : Oid
  Value : V

/-- Pdu is a generic type for other Protocol Data Units. -/
structure Pdu (V : Type) where
  Id : Int
  ErrorStatus : Int
  ErrorIndex : Int
  Variables : List (Variable V)

/-- GetResponsePdu is used in responses to SNMP requests (Go
`type GetResponsePdu Pdu`; the conversion `GetResponsePdu(pdu)` is the identity
on the fields). -/
abbrev GetResponsePdu (V : Type) := Pdu V

/-- BulkPdu is a generic type for other Protocol Data Units. -/
structure BulkPdu (V : Type) where
  Id : Int
  NonRepeaters : Int
  MaxRepetitions : Int
  Variables : List (Variable V)

/-- IpAddress is a IPv4 address (Go `[4]byte`). -/
structure IpAddress where
  b0 : Nat
  b1 : Nat
  b2 : Nat
  b3 : Nat

/-- SnmpV1TrapPdu is used to register a trap in SNMPv1. -/
structure SnmpV1TrapPdu (V : Type) where
  Enterprise : Oid
  AgentAddr : IpAddress
  GenericTrap : Int
  SpecificTrap : Int
  Timestamp : Nat
  Variables : List (Variable V)

/-- The PDU choice: Go `Message.Pdu` is an `interface{}` restricted by
`Asn1Context` to exactly these eight choice types, so it is embedded as a
closed sum. -/
inductive PduVariant (V : Type) where
  | getRequest (p : Pdu V)
  | getNextRequest (p : Pdu V)
  | getResponse (p : Pdu V)
  | setRequest (p : Pdu V)
  | snmpV1Trap (p : SnmpV1TrapPdu V)
  | getBulkRequest (p : BulkPdu V)
  | informRequest (p : Pdu V)
  | snmpV2Trap (p : Pdu V)

/-- Message is the top level element of the SNMP protocol. -/
structure Message (V : Type) where
  Version : Int
  Community : String
  Pdu : PduVariant V

/-- managedObject represents a registered managed object (the `typ` field of
the Go struct is always nil and carries no behaviour, so it is omitted). -/
structure managedObject (V : Type) where
  oid : Oid
  get : Getter V
  set : Setter V

/-- Agent is a transport independent engine to process SNMP requests
(the logger and ASN.1 context fields carry no behaviour relevant here).
The Go fields `public` and `private` are named `pub` and `priv` because
`private` is reserved in Lean. -/
structure Agent (V : Type) where
  handlers : List (managedObject V)
  pub : String
  priv : String

variable {V : Type}

/-- NewAgent create and initialize an agent. -/
def NewAgent (V : Type) : Agent V :=
  { handlers := [], pub := "public", priv := "private" }

/-- SetCommunities defines the public and private communities. -/
def SetCommunities (a : Agent V) (pub priv : String) : Agent V :=
  { a with pub := pub, priv := priv }

/-- checkCommunity handles "authentication" and acls. -/
def checkCommunity (a : Agent V) (community : String) : Except String Bool :=
  if community ≠ a.pub ∧ community ≠ a.priv then
    Except.error ("invalid community " ++ community)
  else
    Except.ok (community == a.priv)

/-- The `Less` method of `sortableManagedObjects`: `h[i].oid.Cmp(h[j].oid) < 0`. -/
def moLess (x y : managedObject V) : Bool :=
  Oid.cmp x.oid y.oid == Ordering.lt

/-- The non-strict comparison `sort.Sort` sorts by: the complement of
`Less` with the arguments swapped. -/
def moLe (x y : managedObject V) : Bool :=
  ! moLess y x

/-- The loop of `getManagedObject` over the ordered handler slice. -/
def getManagedObjectLoop (oid : Oid) (next : Bool) :
    List (managedObject V) → Option (managedObject V)
  | [] => none
  | h :: rest =>
    let cmp := Oid.cmp oid h.oid
    if (!next && cmp == Ordering.eq) || (next && cmp == Ordering.lt) then some h
    else if !next && cmp == Ordering.lt then none
    else getManagedObjectLoop oid next rest

/-- getManagedObject returns the exact managed object for the given OID when
next=false or the next object when next=true. -/
def getManagedObject (a : Agent V) (oid : Oid) (next : Bool) :
    Option (managedObject V) :=
  getManagedObjectLoop oid next a.handlers

/-- String form of an OID (used in the default setter's error message). -/
def oidString (oid : Oid) : String :=
  String.intercalate "." (oid.map toString)

/-- The setter installed by `AddRwManagedObject` when none is supplied:
`Errorf(NotWritable, "OID %s is not writable", oid)`. -/
def defaultSetter : Setter V := fun oid _ =>
  some (GoError.snmp (Errorf NotWritable ("OID " ++ oidString oid ++ " is not writable")))

/-- AddRwManagedObject registers a read-write managed object. The Go method
mutates the receiver and returns an `error`; state passing makes both
explicit: the returned agent is the receiver after the call, and the option
is the returned error. -/
def AddRwManagedObject (a : Agent V) (oid : Oid) (getter : Option (Getter V))
    (setter : Option (Setter V)) : Agent V × Option String :=
  match getter with
  | none => (a, some "A managed object should have at least a getter.")
  | some g =>
    let s := match setter with
      | none => defaultSetter
      | some s => s
    match getManagedObject a oid false with
    | some _ => (a, some "OID is already registered.")
    | none =>
      ({ a with handlers :=
          (a.handlers ++ [managedObject.mk oid g s]).mergeSort moLe }, none)

/-- AddRoManagedObject registers a read-only managed object. -/
def AddRoManagedObject (a : Agent V) (oid : Oid) (getter : Option (Getter V)) :
    Agent V × Option String :=
  AddRwManagedObject a oid getter none

/-- The loop of `processPdu` over the request's variable bindings: `i` is the
0-based position, `acc` the accumulator of values returned by Get, and `res`
the response under construction (initially a copy of the request PDU). -/
def processPduLoop (a : Agent V) (next setF : Bool) :
    List (Variable V) → Nat → List (Variable V) → GetResponsePdu V → GetResponsePdu V
  | [], _, acc, res =>
    if !setF then { res with Variables := acc } else res
  | v :: rest, i, acc, res =>
    match getManagedObject a v.Name next with
    | none =>
      { res with ErrorIndex := Int.ofNat (i + 1), ErrorStatus := NoSuchName }
    | some h =>
      if setF then
        match h.set h.oid v.Value with
        | some e =>
          { res with ErrorIndex := Int.ofNat (i + 1), ErrorStatus := e.status }
        | none => processPduLoop a next setF rest (i + 1) acc res
      else
        match h.get h.oid with
        | Except.error e =>
          { res with ErrorIndex := Int.ofNat (i + 1), ErrorStatus := e.status }
        | Except.ok value =>
          processPduLoop a next setF rest (i + 1) (acc ++ [Variable.mk h.oid value]) res

/-- processPdu handles SNMPv1 requests with exception of SnmpV1TrapPdu. -/
def processPdu (a : Agent V) (pdu : Pdu V) (next setF : Bool) : GetResponsePdu V :=
  processPduLoop a next setF pdu.Variables 0 [] pdu

/-- ProcessMessage handles a SNMP Message. -/
def ProcessMessage (a : Agent V) (request : Message V) : Except String (Message V) :=
  if request.Version ≠ 0 then
    Except.error "invalid SNMP version"
  else
    match checkCommunity a request.Community with
    | Except.error e => Except.error e
    | Except.ok rw =>
      match request.Pdu with
      | PduVariant.getRequest p =>
        Except.ok { request with Pdu := PduVariant.getResponse (processPdu a p false false) }
      | PduVariant.getNextRequest p =>
        Except.ok { request with Pdu := PduVariant.getResponse (processPdu a p true false) }
      | PduVariant.setRequest p =>
        if rw then
          Except.ok { request with Pdu := PduVariant.getResponse (processPdu a p false true) }
        else
          let res := { p with ErrorIndex := (1 : Int), ErrorStatus := NoSuchName }
          Except.ok { request with Pdu := PduVariant.getResponse res }
      | _ => Except.error "PDU not supported"

/-- ProcessDatagram handles a binary SNMP message. The ASN.1 codec is the
external `asn1.Context`: `decode` stands for `ctx.Decode` (returning the
decoded message and the remaining bytes) and `encode` for `ctx.Encode`. -/
def ProcessDatagram (a : Agent V)
    (decode : List Nat → Except String (Message V × List Nat))
    (encode : Message V → Except String (List Nat))
    (requestBytes : List Nat) : Except String (List Nat) :=
  match decode requestBytes with
  | Except.error e => Except.error e
  | Except.ok (request, remaining) =>
    if remaining.length > 0 then
      Except.error "remaining bytes."
    else
      match ProcessMessage a request with
      | Except.error e => Except.error e
      | Except.ok response => encode response

/-! ### Statement-side helpers

Predicates used to state the claims: the outcome of processing a single
variable binding, mirroring one iteration of the `processPdu` loop. -/

/-- Strict ordering of registered entries by OID: the registry invariant is
`List.Pairwise moLt` over the handler list. -/
def moLt (x y : managedObject V) : Prop :=
  Oid.cmp x.oid y.oid = Ordering.lt

/-- How a single binding fails: `some s` when the binding at hand would abort
the PDU with error status `s` (NoSuchName when no entry resolves, the mapped
accessor status otherwise), `none` when it succeeds. -/
def bindingFail (a : Agent V) (next setF : Bool) (v : Variable V) : Option Int :=
  match getManagedObject a v.Name next with
  | none => some NoSuchName
  | some h =>
    if setF then (h.set h.oid v.Value).map GoError.status
    else
      match h.get h.oid with
      | Except.error e => some e.status
      | Except.ok _ => none

/-- The response binding accumulated for a successful Get/GetNext binding:
the resolved entry's OID paired with the getter's returned value. -/
def bindingValue (a : Agent V) (next : Bool) (v : Variable V) : Option (Variable V) :=
  match getManagedObject a v.Name next with
  | none => none
  | some h =>
    match h.get h.oid with
    | Except.error _ => none
    | Except.ok value => some (Variable.mk h.oid value)

/-- The accessor outcome for a resolved binding: the setter's error in Set
mode, the getter's error in Get/GetNext mode. -/
def accessorError (setF : Bool) (h : managedObject V) (v : Variable V) : Option GoError :=
  if setF then h.set h.oid v.Value
  else
    match h.get h.oid with
    | Except.error e => some e
    | Except.ok _ => none

/-! ### Registry lookup lemmas -/

theorem ordBeq_true_iff {a b : Ordering} : (a == b) = true ↔ a = b := by
  cases a <;> cases b <;> decide

theorem gmoLoop_false_cons (oid : Oid) (h0 : managedObject V)
    (rest : List (managedObject V)) :
    getManagedObjectLoop oid false (h0 :: rest) =
      if Oid.cmp oid h0.oid = Ordering.eq then some h0
      else if Oid.cmp oid h0.oid = Ordering.lt then none
      else getManagedObjectLoop oid false rest := by
  simp [getManagedObjectLoop, ordBeq_true_iff]

theorem gmoLoop_true_cons (oid : Oid) (h0 : managedObject V)
    (rest : List (managedObject V)) :
    getManagedObjectLoop oid true (h0 :: rest) =
      if Oid.cmp oid h0.oid = Ordering.lt then some h0
      else getManagedObjectLoop oid true rest := by
  simp [getManagedObjectLoop, ordBeq_true_iff]

theorem gmoLoop_exact_sound {oid : Oid} {hs : List (managedObject V)}
    {h : managedObject V} (hl : getManagedObjectLoop oid false hs = some h) :
    h ∈ hs ∧ h.oid = oid := by
  induction hs with
  | nil => simp [getManagedObjectLoop] at hl
  | cons h0 rest ih =>
    rw [gmoLoop_false_cons] at hl
    by_cases hcmp : Oid.cmp oid h0.oid = Ordering.eq
    · simp only [hcmp, if_pos] at hl
      cases hl
      exact ⟨List.mem_cons_self _ _, (Oid.cmp_eq_iff_eq.mp hcmp).symm⟩
    · by_cases hlt : Oid.cmp oid h0.oid = Ordering.lt
      · simp [hcmp, hlt] at hl
      · simp only [hcmp, hlt, if_false, if_neg, not_false_iff] at hl
        rcases ih hl with ⟨hmem, hoid⟩
        exact ⟨List.mem_cons_of_mem _ hmem, hoid⟩

theorem gmoLoop_exact_complete {oid : Oid} {hs : List (managedObject V)}
    (hsort : List.Pairwise moLt hs) {h : managedObject V}
    (hmem : h ∈ hs) (heq : h.oid = oid) :
    ∃ h', getManagedObjectLoop oid false hs = some h' := by
  induction hs with
  | nil => cases hmem
  | cons h0 rest ih =>
    rw [gmoLoop_false_cons]
    by_cases hcmp : Oid.cmp oid h0.oid = Ordering.eq
    · exact ⟨h0, by simp [hcmp]⟩
    · by_cases hlt : Oid.cmp oid h0.oid = Ordering.lt
      · exfalso
        rcases List.mem_cons.mp hmem with hh | hh
        · subst hh
          exact hcmp (heq ▸ Oid.cmp_eq_iff_eq.mpr rfl)
        · have hlt2 : Oid.cmp h0.oid h.oid = Ordering.lt :=
            (List.pairwise_cons.mp hsort).1 h hh
          have : Oid.cmp oid h.oid = Ordering.lt := Oid.cmp_lt_trans hlt hlt2
          rw [heq] at this
          rw [Oid.cmp_self] at this
          cases this
      · have hmem' : h ∈ rest := by
          rcases List.mem_cons.mp hmem with hh | hh
          · exfalso
            subst hh
            exact hcmp (heq ▸ Oid.cmp_eq_iff_eq.mpr rfl)
          · exact hh
        rcases ih (List.pairwise_cons.mp hsort).2 hmem' with ⟨h', hh'⟩
        exact ⟨h', by simp [hcmp, hlt, hh']⟩

theorem gmoLoop_next_sound {oid : Oid} {hs : List (managedObject V)}
    {h : managedObject V} (hl : getManagedObjectLoop oid true hs = some h) :
    h ∈ hs ∧ Oid.cmp oid h.oid = Ordering.lt := by
  induction hs with
  | nil => simp [getManagedObjectLoop] at hl
  | cons h0 rest ih =>
    rw [gmoLoop_true_cons] at hl
    by_cases hlt : Oid.cmp oid h0.oid = Ordering.lt
    · simp only [hlt, if_pos] at hl
      cases hl
      exact ⟨List.mem_cons_self _ _, hlt⟩
    · simp only [hlt, if_false, if_neg, not_false_iff] at hl
      rcases ih hl with ⟨hmem, hcmp⟩
      exact ⟨List.mem_cons_of_mem _ hmem, hcmp⟩

theorem gmoLoop_next_none {oid : Oid} {hs : List (managedObject V)}
    (hl : getManagedObjectLoop oid true hs = none) :
    ∀ h ∈ hs, Oid.cmp oid h.oid ≠ Ordering.lt := by
  induction hs with
  | nil => intro h hmem; cases hmem
  | cons h0 rest ih =>
    rw [gmoLoop_true_cons] at hl
    by_cases hlt : Oid.cmp oid h0.oid = Ordering.lt
    · simp [hlt] at hl
    · simp only [hlt, if_false, if_neg, not_false_iff] at hl
      intro h hmem
      rcases List.mem_cons.mp hmem with hh | hh
      · subst hh; exact hlt
      · exact ih hl h hh

theorem gmoLoop_next_min {oid : Oid} {hs : List (managedObject V)}
    (hsort : List.Pairwise moLt hs) {h : managedObject V}
    (hl : getManagedObjectLoop oid true hs = some h) :
    ∀ h' ∈ hs, Oid.cmp oid h'.oid = Ordering.lt → Oid.cmp h.oid h'.oid ≠ Ordering.gt := by
  induction hs with
  | nil => simp [getManagedObjectLoop] at hl
  | cons h0 rest ih =>
    rw [gmoLoop_true_cons] at hl
    by_cases hlt : Oid.cmp oid h0.oid = Ordering.lt
    · simp only [hlt, if_pos] at hl
      cases hl
      intro h' hmem _
      rcases List.mem_cons.mp hmem with hh | hh
      · subst hh
        rw [Oid.cmp_self]
        simp
      · have : Oid.cmp h.oid h'.oid = Ordering.lt :=
          (List.pairwise_cons.mp hsort).1 h' hh
        simp [this]
    · simp only [hlt, if_false, if_neg, not_false_iff] at hl
      intro h' hmem hcmp
      rcases List.mem_cons.mp hmem with hh | hh
      · subst hh; exact absurd hcmp hlt
      · exact ih (List.pairwise_cons.mp hsort).2 hl h' hh hcmp

theorem gmoLoop_exact_none {oid : Oid} {hs : List (managedObject V)}
    (hsort : List.Pairwise moLt hs)
    (hl : getManagedObjectLoop oid false hs = none) :
    ∀ h ∈ hs, h.oid ≠ oid := by
  intro h hmem heq
  rcases gmoLoop_exact_complete hsort hmem heq with ⟨h', hh'⟩
  rw [hl] at hh'
  cases hh'

/-! ### PDU processor loop lemmas -/

theorem processPduLoop_cons_fail (a : Agent V) (next setF : Bool) (v : Variable V)
    (rest : List (Variable V)) (i : Nat) (acc : List (Variable V)) (res : GetResponsePdu V)
    {s : Int} (hv : bindingFail a next setF v = some s) :
    processPduLoop a next setF (v :: rest) i acc res =
      { res with ErrorIndex := Int.ofNat (i + 1), ErrorStatus := s } := by
  cases hgm : getManagedObject a v.Name next with
  | none =>
    simp only [bindingFail, hgm, Option.some.injEq] at hv
    simp [processPduLoop, hgm, hv]
  | some h =>
    cases setF with
    | true =>
      simp only [bindingFail, hgm, if_pos] at hv
      cases hs : h.set h.oid v.Value with
      | none => rw [hs] at hv; cases hv
      | some e =>
        rw [hs] at hv
        simp at hv
        simp [processPduLoop, hgm, hs, hv]
    | false =>
      simp only [bindingFail, hgm, if_neg, Bool.false_eq_true, not_false_iff] at hv
      cases hg : h.get h.oid with
      | error e =>
        rw [hg] at hv
        simp only [Option.some.injEq] at hv
        simp [processPduLoop, hgm, hg, hv]
      | ok value => rw [hg] at hv; cases hv

theorem processPduLoop_cons_ok (a : Agent V) (next setF : Bool) (v : Variable V)
    (rest : List (Variable V)) (i : Nat) (acc : List (Variable V)) (res : GetResponsePdu V)
    (hv : bindingFail a next setF v = none) :
    processPduLoop a next setF (v :: rest) i acc res =
      processPduLoop a next setF rest (i + 1)
        (if setF then acc else acc ++ (bindingValue a next v).toList) res := by
  cases hgm : getManagedObject a v.Name next with
  | none => simp [bindingFail, hgm] at hv
  | some h =>
    cases setF with
    | true =>
      simp only [bindingFail, hgm, if_pos] at hv
      cases hs : h.set h.oid v.Value with
      | none => simp [processPduLoop, hgm, hs]
      | some e => rw [hs] at hv; cases hv
    | false =>
      simp only [bindingFail, hgm, if_neg, Bool.false_eq_true, not_false_iff] at hv
      cases hg : h.get h.oid with
      | error e => rw [hg] at hv; cases hv
      | ok value =>
        simp [processPduLoop, hgm, hg, bindingValue]

theorem processPduLoop_fail (a : Agent V) (next setF : Bool) {s : Int}
    (v : Variable V) (post : List (Variable V)) :
    ∀ (pre : List (Variable V)) (i : Nat) (acc : List (Variable V)) (res : GetResponsePdu V),
      (∀ w ∈ pre, bindingFail a next setF w = none) →
      bindingFail a next setF v = some s →
      processPduLoop a next setF (pre ++ v :: post) i acc res =
        { res with ErrorIndex := Int.ofNat (i + pre.length + 1), ErrorStatus := s } := by
  intro pre
  induction pre with
  | nil =>
    intro i acc res _ hv
    simpa using processPduLoop_cons_fail a next setF v post i acc res hv
  | cons w pre' ih =>
    intro i acc res hpre hv
    rw [List.cons_append,
      processPduLoop_cons_ok a next setF w _ i acc res (hpre w (List.mem_cons_self _ _)),
      ih (i + 1) _ res (fun u hu => hpre u (List.mem_cons_of_mem _ hu)) hv]
    have harith : i + 1 + pre'.length + 1 = i + (w :: pre').length + 1 := by
      simp [List.length_cons]
      omega
    rw [harith]

theorem processPduLoop_success (a : Agent V) (next setF : Bool) :
    ∀ (vars : List (Variable V)) (i : Nat) (acc : List (Variable V)) (res : GetResponsePdu V),
      (∀ w ∈ vars, bindingFail a next setF w = none) →
      processPduLoop a next setF vars i acc res =
        (if setF then res
         else { res with Variables := acc ++ vars.filterMap (bindingValue a next) }) := by
  intro vars
  induction vars with
  | nil =>
    intro i acc res _
    cases setF <;> simp [processPduLoop]
  | cons v rest ih =>
    intro i acc res hall
    rw [processPduLoop_cons_ok a next setF v rest i acc res (hall v (List.mem_cons_self _ _)),
      ih (i + 1) _ res (fun u hu => hall u (List.mem_cons_of_mem _ hu))]
    cases setF with
    | true => simp
    | false =>
      cases hbv : bindingValue a next v <;>
        simp [List.filterMap_cons, hbv, List.append_assoc]

theorem processPduLoop_Id (a : Agent V) (next setF : Bool) :
    ∀ (vars : List (Variable V)) (i : Nat) (acc : List (Variable V)) (res : GetResponsePdu V),
      (processPduLoop a next setF vars i acc res).Id = res.Id := by
  intro vars
  induction vars with
  | nil =>
    intro i acc res
    cases setF <;> simp [processPduLoop]
  | cons v rest ih =>
    intro i acc res
    cases hgm : getManagedObject a v.Name next with
    | none => simp [processPduLoop, hgm]
    | some h =>
      cases setF with
      | true =>
        cases hs : h.set h.oid v.Value with
        | none => simp [processPduLoop, hgm, hs, ih]
        | some e => simp [processPduLoop, hgm, hs]
      | false =>
        cases hg : h.get h.oid with
        | error e => simp [processPduLoop, hgm, hg]
        | ok value => simp [processPduLoop, hgm, hg, ih]

/-! ### Claim C1 -/

/-- Claim C1: for every PDU processed by processPdu and every binding list,
if the binding at 1-based position i is the first one that fails (no registry
entry resolves, giving NoSuchName, or the accessor returns an error), the
returned response has errorStatus equal to that failure's status,
errorIndex = i, and its variable list equals the request's original,
unmodified binding list; none of the values accumulated for the earlier
bindings appear in the response. -/
theorem processPdu_aborts_on_first_failure (a : Agent V) (pdu : Pdu V)
    (next setF : Bool) (pre : List (Variable V)) (v : Variable V)
    (post : List (Variable V)) (s : Int)
    (hsplit : pdu.Variables = pre ++ v :: post)
    (hpre : ∀ w ∈ pre, bindingFail a next setF w = none)
    (hv : bindingFail a next setF v = some s) :
    processPdu a pdu next setF =
      Pdu.mk pdu.Id s (Int.ofNat (pre.length + 1)) pdu.Variables := by
  obtain ⟨pid, pes, pei, pvars⟩ := pdu
  simp only at hsplit
  subst hsplit
  unfold processPdu
  simp only
  rw [processPduLoop_fail a next setF v post pre 0 [] _ hpre hv]
  simp

def agW1 : Agent Int :=
  { handlers :=
      [{ oid := [1, 3, 6, 1], get := fun _ => Except.ok 7, set := fun _ _ => none }],
    pub := "public", priv := "private" }

def pduW1 : Pdu Int :=
  { Id := 42, ErrorStatus := 0, ErrorIndex := 0,
    Variables := [Variable.mk [1, 3, 6, 1] 0, Variable.mk [9, 9] 0, Variable.mk [1] 0] }

/-- Witness for claim C1: a Get PDU whose second binding does not resolve
aborts with NoSuchName at index 2 and echoes the original bindings. -/
theorem processPdu_aborts_on_first_failure_witness :
    processPdu agW1 pduW1 false false =
      Pdu.mk 42 NoSuchName 2 pduW1.Variables :=
  processPdu_aborts_on_first_failure agW1 pduW1 false false
    [Variable.mk [1, 3, 6, 1] 0] (Variable.mk [9, 9] 0) [Variable.mk [1] 0]
    NoSuchName rfl (by decide) rfl

/-! ### Claim C2 -/

/-- Claim C2 (amended): for every PDU in which every binding resolves and its
accessor succeeds, processPdu returns a Response whose errorStatus and
errorIndex fields equal the request PDU's own errorStatus and errorIndex
fields (hence NoError and 0 for the conventional request carrying zeroes);
for Get/GetNext its variable list is the accumulated list whose entries carry
the resolved entry's OID paired with the accessor's returned value, and for
Set its variable list is the original request bindings unchanged. -/
theorem processPdu_all_success (a : Agent V) (pdu : Pdu V) (next setF : Bool)
    (hall : ∀ w ∈ pdu.Variables, bindingFail a next setF w = none) :
    processPdu a pdu next setF =
      (if setF then pdu
       else { pdu with Variables := pdu.Variables.filterMap (bindingValue a next) }) := by
  unfold processPdu
  rw [processPduLoop_success a next setF pdu.Variables 0 [] pdu hall]
  simp

def agC2 : Agent Int :=
  { handlers :=
      [{ oid := [1, 3, 6, 1, 2, 1, 1, 3, 0], get := fun _ => Except.ok 123,
         set := fun _ _ => none }],
    pub := "public", priv := "private" }

def pduC2 : Pdu Int :=
  { Id := 1, ErrorStatus := 4, ErrorIndex := 9,
    Variables := [Variable.mk [1, 3, 6, 1, 2, 1, 1, 3, 0] 0] }

/-- Counterexample to claim C2 as stated: in this Get PDU every binding
resolves and its accessor succeeds, yet the response's errorStatus is not
NoError and its errorIndex is not 0, because processPdu starts from a copy of
the request PDU and never resets those fields on the success path. -/
theorem processPdu_all_success_counterexample :
    (∀ w ∈ pduC2.Variables, bindingFail agC2 false false w = none) ∧
    (processPdu agC2 pduC2 false false).ErrorStatus ≠ NoError ∧
    (processPdu agC2 pduC2 false false).ErrorIndex ≠ 0 :=
  ⟨by decide, by decide, by decide⟩

def pduC2w : Pdu Int :=
  { Id := 1, ErrorStatus := 0, ErrorIndex := 0,
    Variables := [Variable.mk [1, 3, 6, 1, 2, 1, 1, 3, 0] 0] }

/-- Witness for claim C2 (amended): the spec's concrete scenario; a registry
holding only OID 1.3.6.1.2.1.1.3.0 with a read accessor returning 123
answers a Get for that exact OID with errorStatus 0, errorIndex 0 and the
single binding carrying value 123. -/
theorem processPdu_all_success_witness :
    processPdu agC2 pduC2w false false =
      Pdu.mk 1 0 0 [Variable.mk [1, 3, 6, 1, 2, 1, 1, 3, 0] 123] :=
  (processPdu_all_success agC2 pduC2w false false (by decide)).trans rfl

/-! ### Claim C3 -/

/-- Claim C3: over a registry whose entry list satisfies the ordering
invariant, lookup in Exact mode returns an entry iff an entry with an OID
equal to the query was registered (and the returned entry is that one), and
lookup in Next mode returns an entry iff some registered OID is strictly
greater than the query (equivalently, it returns none when the query is
greater than or equal to the maximum registered OID), in which case the
returned entry is registered, strictly greater than the query, and minimal
among the registered OIDs strictly greater than the query. -/
theorem getManagedObject_lookup_spec (a : Agent V)
    (hsort : List.Pairwise moLt a.handlers) (oid : Oid) :
    ((∃ h, getManagedObject a oid false = some h) ↔ ∃ h ∈ a.handlers, h.oid = oid) ∧
    (∀ h, getManagedObject a oid false = some h → h ∈ a.handlers ∧ h.oid = oid) ∧
    ((∃ h, getManagedObject a oid true = some h) ↔
      ∃ h ∈ a.handlers, Oid.cmp oid h.oid = Ordering.lt) ∧
    (∀ h, getManagedObject a oid true = some h →
      h ∈ a.handlers ∧ Oid.cmp oid h.oid = Ordering.lt ∧
      ∀ h' ∈ a.handlers, Oid.cmp oid h'.oid = Ordering.lt →
        Oid.cmp h.oid h'.oid ≠ Ordering.gt) := by
  unfold getManagedObject
  refine ⟨⟨?_, ?_⟩, ?_, ⟨?_, ?_⟩, ?_⟩
  · rintro ⟨h, hl⟩
    rcases gmoLoop_exact_sound hl with ⟨hmem, hoid⟩
    exact ⟨h, hmem, hoid⟩
  · rintro ⟨h, hmem, hoid⟩
    exact gmoLoop_exact_complete hsort hmem hoid
  · intro h hl
    exact gmoLoop_exact_sound hl
  · rintro ⟨h, hl⟩
    rcases gmoLoop_next_sound hl with ⟨hmem, hlt⟩
    exact ⟨h, hmem, hlt⟩
  · rintro ⟨h, hmem, hlt⟩
    cases hl : getManagedObjectLoop oid true a.handlers with
    | none => exact absurd hlt (gmoLoop_next_none hl h hmem)
    | some h' => exact ⟨h', rfl⟩
  · intro h hl
    rcases gmoLoop_next_sound hl with ⟨hmem, hlt⟩
    exact ⟨hmem, hlt, gmoLoop_next_min hsort hl⟩

def agW3 : Agent Int :=
  { handlers :=
      [{ oid := [1, 3, 6, 1, 2, 1, 1, 3, 0], get := fun _ => Except.ok 123,
         set := fun _ _ => none },
       { oid := [1, 3, 6, 1, 2, 1, 1, 5, 0], get := fun _ => Except.ok 5,
         set := fun _ _ => none }],
    pub := "public", priv := "private" }

/-- Witness for claim C3: the lookup specification instantiated at a sorted
two-entry registry queried with the spec's shorter OID 1.3.6.1.2.1.1.3, for
which the Next-mode successor is the first entry. -/
theorem getManagedObject_lookup_spec_witness :
    ((∃ h, getManagedObject agW3 [1, 3, 6, 1, 2, 1, 1, 3] false = some h) ↔
      ∃ h ∈ agW3.handlers, h.oid = [1, 3, 6, 1, 2, 1, 1, 3]) ∧
    (∀ h, getManagedObject agW3 [1, 3, 6, 1, 2, 1, 1, 3] false = some h →
      h ∈ agW3.handlers ∧ h.oid = [1, 3, 6, 1, 2, 1, 1, 3]) ∧
    ((∃ h, getManagedObject agW3 [1, 3, 6, 1, 2, 1, 1, 3] true = some h) ↔
      ∃ h ∈ agW3.handlers, Oid.cmp [1, 3, 6, 1, 2, 1, 1, 3] h.oid = Ordering.lt) ∧
    (∀ h, getManagedObject agW3 [1, 3, 6, 1, 2, 1, 1, 3] true = some h →
      h ∈ agW3.handlers ∧ Oid.cmp [1, 3, 6, 1, 2, 1, 1, 3] h.oid = Ordering.lt ∧
      ∀ h' ∈ agW3.handlers, Oid.cmp [1, 3, 6, 1, 2, 1, 1, 3] h'.oid = Ordering.lt →
        Oid.cmp h.oid h'.oid ≠ Ordering.gt) :=
  getManagedObject_lookup_spec agW3
    (by simp [agW3, List.pairwise_cons, moLt]; decide) [1, 3, 6, 1, 2, 1, 1, 3]

/-! ### Order lemmas for the sort comparator -/

theorem ordBeq_false_iff {a b : Ordering} : (a == b) = false ↔ a ≠ b := by
  cases a <;> cases b <;> decide

theorem moLe_iff {x y : managedObject V} :
    moLe x y = true ↔ Oid.cmp x.oid y.oid ≠ Ordering.gt := by
  simp only [moLe, Bool.not_eq_true', moLess, ordBeq_false_iff]
  exact not_congr Oid.cmp_lt_iff_gt

theorem moLe_trans (x y z : managedObject V) :
    moLe x y = true → moLe y z = true → moLe x z = true := by
  simp only [moLe_iff]
  intro h1 h2 hgt
  rcases Oid.cmp_cases x.oid y.oid with hxy | hxy | hxy
  · rcases Oid.cmp_cases y.oid z.oid with hyz | hyz | hyz
    · have := Oid.cmp_lt_trans hxy hyz
      rw [hgt] at this
      cases this
    · have heq : y.oid = z.oid := Oid.cmp_eq_iff_eq.mp hyz
      rw [← heq] at hgt
      rw [hxy] at hgt
      cases hgt
    · exact h2 hyz
  · have heq : x.oid = y.oid := Oid.cmp_eq_iff_eq.mp hxy
    rw [heq] at hgt
    exact h2 hgt
  · exact h1 hxy

theorem moLe_total (x y : managedObject V) :
    (moLe x y || moLe y x) = true := by
  simp only [Bool.or_eq_true, moLe_iff]
  rcases Oid.cmp_cases x.oid y.oid with h | h | h
  · exact Or.inl (by rw [h]; simp)
  · exact Or.inl (by rw [h]; simp)
  · refine Or.inr ?_
    have : Oid.cmp y.oid x.oid = Ordering.lt := Oid.cmp_lt_iff_gt.mpr h
    rw [this]
    simp

theorem moLt_oid_ne {x y : managedObject V} (h : moLt x y) : x.oid ≠ y.oid := by
  intro heq
  rw [moLt, heq, Oid.cmp_self] at h
  cases h

/-- Inserting an unregistered OID into a strictly sorted handler list via
append-then-sort yields a strictly sorted handler list. -/
theorem pairwise_insert_sorted (hs : List (managedObject V))
    (hsort : List.Pairwise moLt hs) (nh : managedObject V)
    (hnot : ∀ h ∈ hs, h.oid ≠ nh.oid) :
    List.Pairwise moLt ((hs ++ [nh]).mergeSort moLe) := by
  have hperm := List.mergeSort_perm (hs ++ [nh]) moLe
  have hle : List.Pairwise (fun x y => moLe x y = true) ((hs ++ [nh]).mergeSort moLe) :=
    List.sorted_mergeSort moLe_trans moLe_total _
  have hne_orig : List.Pairwise (fun x y : managedObject V => x.oid ≠ y.oid) (hs ++ [nh]) := by
    rw [List.pairwise_append]
    refine ⟨hsort.imp (fun hxy => moLt_oid_ne hxy), List.pairwise_singleton _ _, ?_⟩
    intro x hx y hy
    simp only [List.mem_singleton] at hy
    subst hy
    exact hnot x hx
  have hne : List.Pairwise (fun x y : managedObject V => x.oid ≠ y.oid)
      ((hs ++ [nh]).mergeSort moLe) :=
    (List.Perm.pairwise_iff (fun hxy => hxy.symm) hperm).mpr hne_orig
  refine (hle.and hne).imp ?_
  rintro x y ⟨h1, h2⟩
  rcases Oid.cmp_cases x.oid y.oid with h | h | h
  · exact h
  · exact absurd (Oid.cmp_eq_iff_eq.mp h) h2
  · exact absurd h (moLe_iff.mp h1)

/-! ### Claim C4 -/

/-- Claim C4: the empty registry of a new agent satisfies the strict
ascending-OID invariant, every registration call preserves it, a registration
call that returns an error leaves the registry exactly as it was, and a call
naming an already-registered OID, or supplying no getter, returns an error;
hence after any sequence of registration calls the entry list is strictly
ascending with unique keys. -/
theorem registry_registration_invariant (V : Type) :
    List.Pairwise moLt (NewAgent V).handlers ∧
    (∀ (a : Agent V) (oid : Oid) (g : Option (Getter V)) (s : Option (Setter V)),
      List.Pairwise moLt a.handlers →
      List.Pairwise moLt (AddRwManagedObject a oid g s).1.handlers) ∧
    (∀ (a : Agent V) (oid : Oid) (g : Option (Getter V)) (s : Option (Setter V)),
      (AddRwManagedObject a oid g s).2.isSome = true →
      (AddRwManagedObject a oid g s).1 = a) ∧
    (∀ (a : Agent V) (oid : Oid) (g : Option (Getter V)) (s : Option (Setter V)),
      List.Pairwise moLt a.handlers → (∃ h ∈ a.handlers, h.oid = oid) →
      (AddRwManagedObject a oid g s).2.isSome = true) ∧
    (∀ (a : Agent V) (oid : Oid) (s : Option (Setter V)),
      (AddRwManagedObject a oid none s).2.isSome = true) := by
  refine ⟨?_, ?_, ?_, ?_, ?_⟩
  · simp [NewAgent]
  · intro a oid g s hsort
    cases g with
    | none => simpa [AddRwManagedObject] using hsort
    | some g =>
      cases hfind : getManagedObject a oid false with
      | some h => simpa [AddRwManagedObject, hfind] using hsort
      | none =>
        have hnot : ∀ h ∈ a.handlers, h.oid ≠ oid := gmoLoop_exact_none hsort hfind
        cases s with
        | none =>
          simp only [AddRwManagedObject, hfind]
          exact pairwise_insert_sorted a.handlers hsort _ hnot
        | some s0 =>
          simp only [AddRwManagedObject, hfind]
          exact pairwise_insert_sorted a.handlers hsort _ hnot
  · intro a oid g s hiss
    cases g with
    | none => simp [AddRwManagedObject]
    | some g =>
      cases hfind : getManagedObject a oid false with
      | some h => simp [AddRwManagedObject, hfind]
      | none => simp [AddRwManagedObject, hfind] at hiss
  · rintro a oid g s hsort ⟨h, hmem, hoid⟩
    cases g with
    | none => simp [AddRwManagedObject]
    | some g =>
      rcases gmoLoop_exact_complete hsort hmem hoid with ⟨h', hh'⟩
      simp [AddRwManagedObject, getManagedObject, hh']
  · intro a oid s
    simp [AddRwManagedObject]

/-- Witness for claim C4: registering one OID into a fresh agent yields a
strictly sorted registry. -/
theorem registry_registration_invariant_witness :
    List.Pairwise moLt
      (AddRwManagedObject (NewAgent Int) [1, 3]
        (some (fun _ => Except.ok 0)) none).1.handlers :=
  (registry_registration_invariant Int).2.1 (NewAgent Int) [1, 3]
    (some (fun _ => Except.ok 0)) none (registry_registration_invariant Int).1

/-! ### Claim C5 -/

/-- Claim C5: for every Set request whose community authorizes only reading,
the dispatcher returns a response with errorStatus NoSuchName and
errorIndex 1; the result is the same for every registry and every accessor
(the statement quantifies over the whole agent), so no registry lookup and
no write accessor can influence it. -/
theorem set_under_readonly_community (a : Agent V) (m : Message V) (p : Pdu V)
    (hpdu : m.Pdu = PduVariant.setRequest p) (hver : m.Version = 0)
    (hro : m.Community = a.pub) (hnw : m.Community ≠ a.priv) :
    ProcessMessage a m =
      Except.ok { m with Pdu :=
        PduVariant.getResponse (Pdu.mk p.Id NoSuchName 1 p.Variables) } := by
  have hcc : checkCommunity a m.Community = Except.ok false := by
    unfold checkCommunity
    rw [if_neg (by simp [hro])]
    rw [beq_eq_false_iff_ne.mpr hnw]
  unfold ProcessMessage
  rw [if_neg (by simp [hver]), hcc, hpdu]
  obtain ⟨pid, pes, pei, pvars⟩ := p
  simp

def agW5 : Agent Int :=
  { handlers :=
      [{ oid := [1], get := fun _ => Except.ok 9,
         set := fun _ _ => some (GoError.snmp (Errorf BadValue "boom")) }],
    pub := "pub", priv := "priv" }

def mW5 : Message Int :=
  { Version := 0, Community := "pub",
    Pdu := PduVariant.setRequest (Pdu.mk 7 0 0 [Variable.mk [1] 5]) }

/-- Witness for claim C5: a Set PDU under the read-only community of a
registry whose only object would report BadValue if its setter ran is
rejected uniformly with NoSuchName at index 1. -/
theorem set_under_readonly_community_witness :
    ProcessMessage agW5 mW5 =
      Except.ok { mW5 with Pdu :=
        PduVariant.getResponse (Pdu.mk 7 NoSuchName 1 [Variable.mk [1] 5]) } :=
  set_under_readonly_community agW5 mW5 (Pdu.mk 7 0 0 [Variable.mk [1] 5])
    rfl rfl rfl (by decide)

/-! ### Claim C6 -/

/-- Claim C6: the access-control check fails iff the community string equals
neither the configured read community nor the configured write community
(string matching is exact equality, hence case-sensitive), in which case
ProcessMessage returns an error and no response message; when the string
equals the write community the result is writable, and when it equals only
the read community it is not writable. -/
theorem checkCommunity_spec (a : Agent V) (c : String) :
    ((∃ e, checkCommunity a c = Except.error e) ↔ (c ≠ a.pub ∧ c ≠ a.priv)) ∧
    (c = a.priv → checkCommunity a c = Except.ok true) ∧
    (c = a.pub → c ≠ a.priv → checkCommunity a c = Except.ok false) ∧
    (∀ m : Message V, m.Community = c → c ≠ a.pub → c ≠ a.priv →
      ∃ e, ProcessMessage a m = Except.error e) := by
  refine ⟨⟨?_, ?_⟩, ?_, ?_, ?_⟩
  · rintro ⟨e, he⟩
    by_contra hcon
    unfold checkCommunity at he
    rw [if_neg hcon] at he
    cases he
  · intro hcond
    exact ⟨_, by unfold checkCommunity; rw [if_pos hcond]⟩
  · intro hpriv
    unfold checkCommunity
    rw [if_neg (by simp [hpriv])]
    rw [hpriv]
    simp
  · intro hpub hnp
    unfold checkCommunity
    rw [if_neg (by simp [hpub])]
    rw [beq_eq_false_iff_ne.mpr hnp]
  · intro m hmc hnp hnpr
    unfold ProcessMessage
    by_cases hver : m.Version ≠ 0
    · exact ⟨_, by rw [if_pos hver]⟩
    · have hcc : checkCommunity a m.Community =
          Except.error ("invalid community " ++ m.Community) := by
        unfold checkCommunity
        rw [if_pos ⟨by rw [hmc]; exact hnp, by rw [hmc]; exact hnpr⟩]
      exact ⟨_, by rw [if_neg hver, hcc]⟩

def agW6 : Agent Int :=
  { handlers := [], pub := "pub", priv := "priv" }

def mW6 : Message Int :=
  { Version := 0, Community := "Pub",
    Pdu := PduVariant.getRequest (Pdu.mk 3 0 0 []) }

/-- Witness for claim C6: the write community is writable, the read
community is not, and the case-changed string "Pub" is rejected with an
error and no response. -/
theorem checkCommunity_spec_witness :
    checkCommunity agW6 "priv" = Except.ok true ∧
    checkCommunity agW6 "pub" = Except.ok false ∧
    (∃ e, ProcessMessage agW6 mW6 = Except.error e) :=
  ⟨(checkCommunity_spec agW6 "priv").2.1 rfl,
   (checkCommunity_spec agW6 "pub").2.2.1 rfl (by decide),
   (checkCommunity_spec agW6 "Pub").2.2.2 mW6 rfl (by decide) (by decide)⟩

/-! ### Claim C7 -/

/-- Claim C7: for every request message whose version field is not the
supported value 0, ProcessMessage fails fast with an error and produces no
response message, and hence ProcessDatagram produces no response bytes for
any datagram decoding to that message. -/
theorem version_gate (a : Agent V) (m : Message V) (hver : m.Version ≠ 0) :
    (∃ e, ProcessMessage a m = Except.error e) ∧
    (∀ (decode : List Nat → Except String (Message V × List Nat))
       (encode : Message V → Except String (List Nat)) (bytes : List Nat),
      decode bytes = Except.ok (m, []) →
      ∃ e, ProcessDatagram a decode encode bytes = Except.error e) := by
  have hpm : ProcessMessage a m = Except.error "invalid SNMP version" := by
    unfold ProcessMessage
    rw [if_pos hver]
  refine ⟨⟨_, hpm⟩, ?_⟩
  intro decode encode bytes hdec
  refine ⟨"invalid SNMP version", ?_⟩
  unfold ProcessDatagram
  rw [hdec]
  simp [hpm]

def mW7 : Message Int :=
  { Version := 1, Community := "public",
    Pdu := PduVariant.getRequest (Pdu.mk 1 0 0 []) }

/-- Witness for claim C7: a version-1 message is rejected by ProcessMessage
and yields no bytes from ProcessDatagram. -/
theorem version_gate_witness :
    (∃ e, ProcessMessage (NewAgent Int) mW7 = Except.error e) ∧
    (∃ e, ProcessDatagram (NewAgent Int) (fun _ => Except.ok (mW7, []))
      (fun _ => Except.ok []) [] = Except.error e) :=
  ⟨(version_gate (NewAgent Int) mW7 (by decide)).1,
   (version_gate (NewAgent Int) mW7 (by decide)).2
     (fun _ => Except.ok (mW7, [])) (fun _ => Except.ok []) [] rfl⟩

/-! ### Claim C8 -/

/-- Claim C8: for every binding whose accessor fails, if the error is the
typed Error carrying a status code the response's errorStatus equals exactly
that status, and if it is any other error value the errorStatus is GenErr;
in both cases errorIndex is the failing binding's 1-based position. -/
theorem accessor_error_status_mapping (a : Agent V) (pdu : Pdu V)
    (next setF : Bool) (pre : List (Variable V)) (v : Variable V)
    (post : List (Variable V)) (h : managedObject V) (e : GoError)
    (hsplit : pdu.Variables = pre ++ v :: post)
    (hpre : ∀ w ∈ pre, bindingFail a next setF w = none)
    (hres : getManagedObject a v.Name next = some h)
    (herr : accessorError setF h v = some e) :
    (processPdu a pdu next setF =
      Pdu.mk pdu.Id (GoError.status e) (Int.ofNat (pre.length + 1)) pdu.Variables) ∧
    (∀ (st : Int) (msg : String),
      GoError.status (GoError.snmp (Error.mk st msg)) = st) ∧
    (∀ msg : String, GoError.status (GoError.other msg) = GenErr) := by
  refine ⟨?_, fun st msg => rfl, fun msg => rfl⟩
  have hv : bindingFail a next setF v = some e.status := by
    cases setF with
    | true =>
      unfold accessorError at herr
      rw [if_pos rfl] at herr
      simp [bindingFail, hres, herr]
    | false =>
      unfold accessorError at herr
      rw [if_neg Bool.false_ne_true] at herr
      cases hg : h.get h.oid with
      | error e' =>
        rw [hg] at herr
        simp only [Option.some.injEq] at herr
        subst herr
        simp [bindingFail, hres, hg]
      | ok val => rw [hg] at herr; cases herr
  obtain ⟨pid, pes, pei, pvars⟩ := pdu
  simp only at hsplit
  subst hsplit
  unfold processPdu
  simp only
  rw [processPduLoop_fail a next setF v post pre 0 [] _ hpre hv]
  simp

def agW8 : Agent Int :=
  { handlers :=
      [{ oid := [1, 3], get := fun _ => Except.error (GoError.other "disk on fire"),
         set := fun _ _ => none }],
    pub := "public", priv := "private" }

def pduW8 : Pdu Int :=
  { Id := 5, ErrorStatus := 0, ErrorIndex := 0, Variables := [Variable.mk [1, 3] 0] }

/-- Witness for claim C8: a getter failing with an untyped error maps to
GenErr at index 1. -/
theorem accessor_error_status_mapping_witness :
    processPdu agW8 pduW8 false false =
      Pdu.mk 5 GenErr 1 pduW8.Variables :=
  (accessor_error_status_mapping agW8 pduW8 false false [] (Variable.mk [1, 3] 0) []
    (managedObject.mk [1, 3] (fun _ => Except.error (GoError.other "disk on fire"))
      (fun _ _ => none))
    (GoError.other "disk on fire") rfl (by intro w hw; cases hw) rfl rfl).1

/-! ### Claim C9 -/

/-- Claim C9: an object registered without a write accessor carries the fixed
default not-writable setter (second conjunct: both AddRoManagedObject, which
passes a nil setter, and AddRwManagedObject with a nil setter install
`defaultSetter` on the registered entry), and a Set PDU that resolves such an
object fails at that binding with errorStatus NotWritable and the binding's
1-based index as errorIndex (first conjunct). -/
theorem set_default_not_writable (a : Agent V) (pdu : Pdu V)
    (pre : List (Variable V)) (v : Variable V) (post : List (Variable V))
    (h : managedObject V)
    (hsplit : pdu.Variables = pre ++ v :: post)
    (hpre : ∀ w ∈ pre, bindingFail a false true w = none)
    (hres : getManagedObject a v.Name false = some h)
    (hset : h.set = (defaultSetter : Setter V)) :
    (processPdu a pdu false true =
      Pdu.mk pdu.Id NotWritable (Int.ofNat (pre.length + 1)) pdu.Variables) ∧
    (∀ (a₂ : Agent V) (oid : Oid) (g : Getter V),
      (AddRwManagedObject a₂ oid (some g) none).2 = none →
      ∃ h₂ ∈ (AddRwManagedObject a₂ oid (some g) none).1.handlers,
        h₂.oid = oid ∧ h₂.set = (defaultSetter : Setter V)) := by
  constructor
  · have hv : bindingFail a false true v = some NotWritable := by
      simp [bindingFail, hres, hset, defaultSetter, Errorf, GoError.status]
    obtain ⟨pid, pes, pei, pvars⟩ := pdu
    simp only at hsplit
    subst hsplit
    unfold processPdu
    simp only
    rw [processPduLoop_fail a false true v post pre 0 [] _ hpre hv]
    simp
  · intro a₂ oid g hok
    cases hfind : getManagedObject a₂ oid false with
    | some h' => simp [AddRwManagedObject, hfind] at hok
    | none =>
      refine ⟨managedObject.mk oid g defaultSetter, ?_, rfl, rfl⟩
      simp [AddRwManagedObject, hfind, List.mem_mergeSort]

def agW9 : Agent Int :=
  { handlers := [managedObject.mk [1, 3] (fun _ => Except.ok 1) defaultSetter],
    pub := "public", priv := "private" }

def pduW9 : Pdu Int :=
  { Id := 8, ErrorStatus := 0, ErrorIndex := 0, Variables := [Variable.mk [1, 3] 4] }

/-- Witness for claim C9: a Set PDU resolving an object whose setter is the
default not-writable one fails with NotWritable at index 1. -/
theorem set_default_not_writable_witness :
    processPdu agW9 pduW9 false true =
      Pdu.mk 8 NotWritable 1 pduW9.Variables :=
  (set_default_not_writable agW9 pduW9 [] (Variable.mk [1, 3] 4) []
    (managedObject.mk [1, 3] (fun _ => Except.ok 1) defaultSetter)
    rfl (by intro w hw; cases hw) rfl rfl).1

/-! ### Claim C10 -/

/-- Claim C10: for every serviced Get, GetNext, or Set request, the response
PDU's Identifier (request-id) field equals the request PDU's Identifier
field, for both success and error outcomes. -/
theorem response_preserves_request_id (a : Agent V) (m resp : Message V)
    (hok : ProcessMessage a m = Except.ok resp) :
    ∃ p q, (m.Pdu = PduVariant.getRequest p ∨ m.Pdu = PduVariant.getNextRequest p ∨
            m.Pdu = PduVariant.setRequest p) ∧
      resp.Pdu = PduVariant.getResponse q ∧ q.Id = p.Id := by
  unfold ProcessMessage at hok
  by_cases hver : m.Version ≠ 0
  · rw [if_pos hver] at hok
    cases hok
  · rw [if_neg hver] at hok
    cases hcc : checkCommunity a m.Community with
    | error e =>
      rw [hcc] at hok
      cases hok
    | ok rw0 =>
      rw [hcc] at hok
      cases hpdu : m.Pdu with
      | getRequest p =>
        rw [hpdu] at hok
        cases hok
        refine ⟨p, processPdu a p false false, Or.inl rfl, rfl, ?_⟩
        exact processPduLoop_Id a false false p.Variables 0 [] p
      | getNextRequest p =>
        rw [hpdu] at hok
        cases hok
        refine ⟨p, processPdu a p true false, Or.inr (Or.inl rfl), rfl, ?_⟩
        exact processPduLoop_Id a true false p.Variables 0 [] p
      | setRequest p =>
        rw [hpdu] at hok
        cases hrw : rw0 with
        | true =>
          rw [hrw] at hok
          cases hok
          refine ⟨p, processPdu a p false true, Or.inr (Or.inr rfl), rfl, ?_⟩
          exact processPduLoop_Id a false true p.Variables 0 [] p
        | false =>
          rw [hrw] at hok
          cases hok
          exact ⟨p, _, Or.inr (Or.inr rfl), rfl, rfl⟩
      | getResponse p => rw [hpdu] at hok; cases hok
      | snmpV1Trap p => rw [hpdu] at hok; cases hok
      | getBulkRequest p => rw [hpdu] at hok; cases hok
      | informRequest p => rw [hpdu] at hok; cases hok
      | snmpV2Trap p => rw [hpdu] at hok; cases hok

def mW10 : Message Int :=
  { Version := 0, Community := "public",
    Pdu := PduVariant.getRequest (Pdu.mk 99 0 0 []) }

def respW10 : Message Int :=
  { Version := 0, Community := "public",
    Pdu := PduVariant.getResponse (Pdu.mk 99 0 0 []) }

/-- Witness for claim C10: a serviced Get request with identifier 99 yields a
response whose identifier is also 99. -/
theorem response_preserves_request_id_witness :
    ∃ p q, (mW10.Pdu = PduVariant.getRequest p ∨
            mW10.Pdu = PduVariant.getNextRequest p ∨
            mW10.Pdu = PduVariant.setRequest p) ∧
      respW10.Pdu = PduVariant.getResponse q ∧ q.Id = p.Id :=
  response_preserves_request_id (NewAgent Int) mW10 respW10 rfl

end Snmp
